import Mathlib

/-!
Verification of the webflow-mcp connector (src/index.js, v2 connector) against
its specification. The JavaScript is shallowly embedded: JSON values become
the inductive `JsVal` (with an explicit `undefV` for JavaScript's
`undefined`), objects whose keys the code reads become Lean structures with
`JsVal` fields (a missing property is `undefV`, exactly what a property read
returns in JavaScript), and each upstream HTTP interaction is modelled by
passing the upstream's scripted response(s) as explicit arguments, with the
list of issued calls returned as a trace so that call counts can be stated.
-/

namespace WF

/-- A JavaScript value as far as the connector inspects one: `undefV` stands
for `undefined` (also the result of, reading a missing property). -/
inductive JsVal where
  | undefV
  | nullV
  | boolV (b : Bool)
  | numV (n : Int)
  | strV (s : String)
  deriving DecidableEq, Repr

/-- JavaScript truthiness of a `JsVal` (`undefined`, `null`, `false`, `0` and
the empty string are falsy). -/
def JsVal.truthy : JsVal → Bool
  | .undefV => false
  | .nullV => false
  | .boolV b => b
  | .numV n => decide (n ≠ 0)
  | .strV s => decide (s ≠ "")

/-- The JavaScript `||` operator: the left value when truthy, else the right
value (even when the right value is itself falsy). -/
def jsOr (a b : JsVal) : JsVal := if a.truthy then a else b

/-- The JavaScript `??` operator: the left value unless it is `undefined` or
`null`. -/
def jsNN (a b : JsVal) : JsVal :=
  match a with
  | .undefV => b
  | .nullV => b
  | _ => a

/-- Whether a value is nullish (`undefined` or `null`), the condition under
which `??` falls through. -/
def nullish (a : JsVal) : Bool :=
  match a with
  | .undefV => true
  | .nullV => true
  | _ => false

/-- JavaScript `String(v)` for the values the connector stringifies. -/
def jsToString : JsVal → String
  | .undefV => "undefined"
  | .nullV => "null"
  | .boolV true => "true"
  | .boolV false => "false"
  | .numV n => toString n
  | .strV s => s

/-- `String.prototype.slice(-n)`: the last `n` characters (the whole string
when it is shorter), the `takeLast` helper of the audit route. -/
def takeLast (s : String) (n : Nat) : String :=
  String.mk (s.toList.drop (s.toList.length - n))

/-- Substring test (used only by the spec-modelled error signatures). -/
def strHas (s pat : String) : Bool := decide (pat.toList <:+: s.toList)

/-- `toLowerCase` on the strings the guard compares (ASCII header values). -/
def strToLower (s : String) : String := String.mk (s.toList.map Char.toLower)

/-- Lookup of a key in an embedded JavaScript object (association list in
property-insertion order); `none` means the property is absent. -/
def jsGet (m : List (String × JsVal)) (k : String) : Option JsVal :=
  match m with
  | [] => none
  | (k0, v0) :: rest => if k0 = k then some v0 else jsGet rest k

/-- JavaScript property assignment `m[k] = v`: overwrite in place when the key
exists (its position is kept), append otherwise. -/
def jsSet (m : List (String × JsVal)) (k : String) (v : JsVal) :
    List (String × JsVal) :=
  match m with
  | [] => [(k, v)]
  | (k0, v0) :: rest =>
      if k0 = k then (k0, v) :: rest else (k0, v0) :: jsSet rest k v

/-- The value of property `k` when it is present AND not `undefined` — the
test `x !== undefined` sees an absent property and an explicit `undefined`
the same way. -/
def jsDefined (m : List (String × JsVal)) (k : String) : Option JsVal :=
  match jsGet m k with
  | some JsVal.undefV => none
  | some v => some v
  | none => none

/-- `HttpError` of src/index.js (status plus the extracted message; the
details bag is not needed by any claim). The message is a `JsVal` because the
`||` chain that extracts it can surface any truthy JSON value. -/
structure HttpError where
  status : Nat
  message : JsVal
  deriving DecidableEq, Repr

/-- The parsed upstream response body as far as `wf` reads it: the three
error-envelope fields (`err`, `message`, `msg`); a `null` body behaves as all
fields `undefV`. -/
structure WfData where
  err : JsVal
  message : JsVal
  msg : JsVal
  deriving DecidableEq, Repr

/-- One upstream HTTP response as `wf` sees it (`res.ok`, `res.status`, and
the parsed body). -/
structure UpstreamResp where
  ok : Bool
  status : Nat
  data : WfData
  deriving DecidableEq, Repr

/-- The error-message extraction of `wf` (src/index.js:475):
`data?.err || data?.message || data?.msg || default templated message`. -/
def extractMsg (r : UpstreamResp) : JsVal :=
  jsOr r.data.err (jsOr r.data.message (jsOr r.data.msg
    (JsVal.strV ("Webflow API error " ++ toString r.status))))

/-- `wf` (src/index.js:446-480) applied to the single upstream response it
elicits: return the parsed data on success, otherwise throw an `HttpError`
with the upstream status and the extracted message. -/
def wf (r : UpstreamResp) : Except HttpError WfData :=
  if r.ok then Except.ok r.data
  else Except.error { status := r.status, message := extractMsg r }

/-- The dispatcher as the code has it: given the response the primary-tagged
attempt would get AND the response a legacy-tagged retry would get, `wf`
issues exactly one request (the primary one) and returns its outcome; the
second component counts the upstream calls issued. The `legacy` argument is
there only so the spec's fallback behaviour is statable — the code never
consults it. -/
def wfDispatch (primary legacy : UpstreamResp) : Except HttpError WfData × Nat :=
  (wf primary, 1)

/-- Modelled from the spec: the "unsupported version" signature of claim C1
(src/index.js contains no version-negotiation logic, so this predicate
renders the spec's words: a 400 whose extracted name/message is the exact
error name, or whose message names the legacy version 1.0.0 as the only
valid range). -/
def unsupportedVersionSig (e : HttpError) : Bool :=
  decide (e.status = 400) &&
    (decide (e.message = JsVal.strV "UnsupportedVersionError") ||
      (match e.message with
       | .strV s => strHas s "1.0.0"
       | _ => false))

/-- Modelled from the spec: the "required alternate key" signature of claim C2
(src/index.js contains no payload-shape fallback, so this predicate renders
the spec's words: a 400 whose message is a "required" message naming the
alternate field-container key). -/
def requiredAlternateKeySig (e : HttpError) : Bool :=
  decide (e.status = 400) &&
    (match e.message with
     | .strV s => strHas s "fields" && strHas s "required"
     | _ => false)

/-- The request body of a write route: `req.body` split into its `fieldData`
property (`some` exactly when it is present and an object) and the remaining
top-level entries. -/
structure WriteInput where
  fieldData : Option (List (String × JsVal))
  top : List (String × JsVal)
  deriving DecidableEq, Repr

/-- `toFieldDataShape` (src/index.js:491-497): use `body.fieldData` when it is
an object, else every top-level entry except the `fieldData` key. -/
def toFieldDataShape (src : WriteInput) : List (String × JsVal) :=
  src.fieldData.getD src.top

/-- The two-step default of `normalizeDraftArchive`:
`src?.isDraft !== undefined ? !!src.isDraft : (src?._draft !== undefined ?
!!src._draft : false)` (and the same for the archived pair). -/
def lifecycleDefault (alt orig : Option JsVal) : Bool :=
  match alt with
  | some v => v.truthy
  | none =>
      match orig with
      | some v => v.truthy
      | none => false

/-- `normalizeDraftArchive` (src/index.js:499-508): fill `_draft` and
`_archived` into the field-data map when they are undefined, consulting
`isDraft`/`isArchived` and then `_draft`/`_archived` on the original body. -/
def normalizeDraftArchive (fd : List (String × JsVal)) (src : WriteInput) :
    List (String × JsVal) :=
  let d1 :=
    match jsDefined fd "_draft" with
    | some _ => fd
    | none =>
        jsSet fd "_draft"
          (JsVal.boolV (lifecycleDefault (jsDefined src.top "isDraft")
            (jsDefined src.top "_draft")))
  match jsDefined d1 "_archived" with
  | some _ => d1
  | none =>
      jsSet d1 "_archived"
        (JsVal.boolV (lifecycleDefault (jsDefined src.top "isArchived")
          (jsDefined src.top "_archived")))

/-- The resolved `_draft` value as the amended claim C9 states the precedence:
a defined `_draft` in the normalized map wins; else `isDraft` on the original
input; else `_draft` on the original input; else `false`. -/
def resolvedDraft (fd : List (String × JsVal)) (src : WriteInput) : JsVal :=
  match jsDefined fd "_draft" with
  | some v => v
  | none =>
      JsVal.boolV (lifecycleDefault (jsDefined src.top "isDraft")
        (jsDefined src.top "_draft"))

/-- The resolved `_archived` value, same precedence as `resolvedDraft`. -/
def resolvedArchived (fd : List (String × JsVal)) (src : WriteInput) : JsVal :=
  match jsDefined fd "_archived" with
  | some v => v
  | none =>
      JsVal.boolV (lifecycleDefault (jsDefined src.top "isArchived")
        (jsDefined src.top "_archived"))

/-- The upstream body the item-create route sends (src/index.js:628-630):
`{ fieldData, isDraft: fieldData._draft, isArchived: fieldData._archived }`. -/
structure CreateBody where
  fieldData : List (String × JsVal)
  isDraft : JsVal
  isArchived : JsVal
  deriving DecidableEq, Repr

/-- The single upstream write body the create route builds from `req.body`. -/
def createRequestBody (input : WriteInput) : CreateBody :=
  let fd := normalizeDraftArchive (toFieldDataShape input) input
  { fieldData := fd,
    isDraft := (jsGet fd "_draft").getD JsVal.undefV,
    isArchived := (jsGet fd "_archived").getD JsVal.undefV }

/-- The item-create route (src/index.js:622-632) against the response its one
upstream POST elicits: outcome of `wf`, plus the trace of issued write
bodies (the code issues exactly one, with no shape retry). -/
def createItemRoute (input : WriteInput) (resp : UpstreamResp) :
    Except HttpError WfData × List CreateBody :=
  (wf resp, [createRequestBody input])

/-- One parsed page as `listAllItems` inspects it: an object with an `items`
array, a bare array, or anything else (treated as an empty page). -/
inductive PageResp (α : Type) where
  | wrapped (items : List α)
  | bare (items : List α)
  | other
  deriving DecidableEq, Repr

/-- `Array.isArray(page?.items) ? page.items : (Array.isArray(page) ? page : [])`. -/
def pageItems {α : Type} : PageResp α → List α
  | .wrapped its => its
  | .bare its => its
  | .other => []

/-- The loop body of `listAllItems` (src/index.js:510-521), fuelled because
the source loop has no bound: fetch the page at `offset`, concatenate, stop
when a page is shorter than `pageSize`, else continue at `offset + pageSize`.
Returns the items with the number of upstream calls; `none` means the fuel
ran out before a short page appeared. -/
def listAllGo {α : Type} (fetch : Nat → Except HttpError (PageResp α))
    (pageSize : Nat) : Nat → Nat → Option (Except HttpError (List α × Nat))
  | 0, _ => none
  | fuel + 1, offset =>
      match fetch offset with
      | .error e => some (.error e)
      | .ok page =>
          let arr := pageItems page
          if arr.length < pageSize then some (.ok (arr, 1))
          else
            match listAllGo fetch pageSize fuel (offset + pageSize) with
            | none => none
            | some (.error e) => some (.error e)
            | some (.ok (rest, n)) => some (.ok (arr ++ rest, n + 1))

/-- `listAllItems`: the pagination aggregator started at offset 0. -/
def listAllItems {α : Type} (fetch : Nat → Except HttpError (PageResp α))
    (pageSize fuel : Nat) : Option (Except HttpError (List α × Nat)) :=
  listAllGo fetch pageSize fuel 0

/-- The nested `fieldData` object of an item as the audit reads it (only the
four properties the code touches; an absent `fieldData` behaves as one whose
every property is `undefV`, which is exactly what the optional chains
`it?.fieldData?.x` yield). -/
structure ItemFD where
  slug : JsVal
  name : JsVal
  _draft : JsVal
  _archived : JsVal
  deriving DecidableEq, Repr

/-- An item as the audit route reads it (src/index.js:738-777). -/
structure Item where
  id : JsVal
  _id : JsVal
  itemId : JsVal
  slug : JsVal
  name : JsVal
  isDraft : JsVal
  isArchived : JsVal
  _draft : JsVal
  _archived : JsVal
  fieldData : ItemFD
  deriving DecidableEq, Repr

/-- `it.id || it._id || it.itemId || it['id']` (src/index.js:739). -/
def idOf (it : Item) : JsVal :=
  jsOr it.id (jsOr it._id (jsOr it.itemId it.id))

/-- `it?.slug ?? it?.fieldData?.slug` (src/index.js:740). -/
def slugOf (it : Item) : JsVal := jsNN it.slug it.fieldData.slug

/-- `it?.name ?? it?.fieldData?.name` (src/index.js:741). -/
def nameOf (it : Item) : JsVal := jsNN it.name it.fieldData.name

/-- `it?.isDraft ?? it?.fieldData?._draft ?? it?._draft ?? false`
(src/index.js:742). -/
def isDraftOf (it : Item) : JsVal :=
  jsNN it.isDraft (jsNN it.fieldData._draft (jsNN it._draft (JsVal.boolV false)))

/-- `it?.isArchived ?? it?.fieldData?._archived ?? it?._archived ?? false`
(src/index.js:743). -/
def isArchivedOf (it : Item) : JsVal :=
  jsNN it.isArchived
    (jsNN it.fieldData._archived (jsNN it._archived (JsVal.boolV false)))

/-- The key under which an item is grouped: its resolved slug when truthy
(`if (slug) { ... seenSlugs ... }`), nothing otherwise. -/
def slugKey (it : Item) : Option JsVal :=
  if (slugOf it).truthy then some (slugOf it) else none

/-- One step of the `seenSlugs` map building: `if (!seenSlugs.has(slug))
seenSlugs.set(slug, []); seenSlugs.get(slug).push(id)` — insertion order is
kept, an existing key keeps its position and appends the id. -/
def insertSlug (m : List (JsVal × List JsVal)) (s : JsVal) (i : JsVal) :
    List (JsVal × List JsVal) :=
  match m with
  | [] => [(s, [i])]
  | (k, ids) :: rest =>
      if k = s then (k, ids ++ [i]) :: rest else (k, ids) :: insertSlug rest s i

/-- The fold step over one item of the classification scan. -/
def stepSlug (m : List (JsVal × List JsVal)) (it : Item) :
    List (JsVal × List JsVal) :=
  match slugKey it with
  | some s => insertSlug m s (idOf it)
  | none => m

/-- The `seenSlugs` map after the linear scan (src/index.js:750-754). -/
def seenSlugs (items : List Item) : List (JsVal × List JsVal) :=
  List.foldl stepSlug [] items

/-- `dupSlugs` (src/index.js:755-757): the groups with more than one id, in
map insertion order. -/
def dupSlugs (items : List Item) : List (JsVal × List JsVal) :=
  (seenSlugs items).filter (fun p => decide (1 < p.2.length))

/-- The ids, in encounter order, of the items whose truthy resolved slug is
`t` — the reference value the duplicate-group claim compares against. -/
def slugIds (items : List Item) (t : JsVal) : List JsVal :=
  (items.filter (fun it => decide (slugKey it = some t))).map idOf

/-- One generated patch suggestion (src/index.js:759-777): the item id, the
proposed changes, and the `_draft`/`_archived` values the patch body carries
(`it?.fieldData?._draft ?? false` and `it?.fieldData?._archived ?? false`). -/
structure PatchSuggestion where
  itemId : JsVal
  changeSlug : Option String
  changeName : Option String
  patchDraft : JsVal
  patchArchived : JsVal
  deriving DecidableEq, Repr

/-- The suggestion the second pass generates for one item, given the
duplicate groups of the collection; `none` when the item needs no patch. -/
def suggestionFor (dups : List (JsVal × List JsVal)) (it : Item) :
    Option PatchSuggestion :=
  let id := idOf it
  let slug := slugOf it
  let name := nameOf it
  let changeSlug : Option String :=
    if ¬ slug.truthy then some ("auto-" ++ takeLast (jsToString id) 6)
    else if dups.any (fun d => decide (id ∈ d.2)) then
      some (jsToString slug ++ "-" ++ takeLast (jsToString id) 6)
    else none
  let changeName : Option String :=
    if ¬ name.truthy then some ("Missing name " ++ takeLast (jsToString id) 6)
    else none
  if changeSlug.isSome || changeName.isSome then
    some { itemId := id, changeSlug := changeSlug, changeName := changeName,
           patchDraft := jsNN it.fieldData._draft (JsVal.boolV false),
           patchArchived := jsNN it.fieldData._archived (JsVal.boolV false) }
  else none

/-- All patch suggestions of one collection's items. -/
def patchSuggestions (items : List Item) : List PatchSuggestion :=
  items.filterMap (suggestionFor (dupSlugs items))

/-- One per-collection report entry (src/index.js:779-793): on a fetch error
the loop proceeds with `items = []`, so every count is over the empty list
and `error` is populated. -/
structure ColEntry where
  error : Option HttpError
  itemsCount : Nat
  missingSlugs : Nat
  missingNames : Nat
  drafts : Nat
  archivedCount : Nat
  duplicateSlugs : List (JsVal × List JsVal)
  patches : List PatchSuggestion
  deriving DecidableEq, Repr

/-- The report entry built from one collection's fetch outcome
(src/index.js:720-794). -/
def colEntry (o : Except HttpError (List Item)) : ColEntry :=
  let items := match o with | .ok l => l | .error _ => []
  { error := match o with | .ok _ => none | .error e => some e,
    itemsCount := items.length,
    missingSlugs := (items.filter (fun it => ! (slugOf it).truthy)).length,
    missingNames := (items.filter (fun it => ! (nameOf it).truthy)).length,
    drafts := (items.filter (fun it => (isDraftOf it).truthy)).length,
    archivedCount := (items.filter (fun it => (isArchivedOf it).truthy)).length,
    duplicateSlugs := dupSlugs items,
    patches := patchSuggestions items }

/-- The audit report as far as the per-collection loop shapes it: status is
set to ok up front and no per-collection failure changes it;
`totals.items += items.length` accumulates in loop order. -/
structure AuditReport where
  status : String
  totalCollections : Nat
  totalItems : Nat
  collections : List ColEntry
  deriving DecidableEq, Repr

/-- The per-item contribution to `totals.items`: zero for a failed fetch. -/
def okLen (o : Except HttpError (List Item)) : Nat :=
  match o with | .ok l => l.length | .error _ => 0

/-- The audit run over the per-collection fetch outcomes
(src/index.js:694-794, the parts the audit claims are about). -/
def auditReport (outs : List (Except HttpError (List Item))) : AuditReport :=
  { status := "ok",
    totalCollections := outs.length,
    totalItems := (outs.map okLen).sum,
    collections := outs.map colEntry }

/-- The guard configuration (the `ALLOW_MUTATIONS` and
`REQUIRE_DESTRUCTIVE_HEADER` environment strings). -/
structure GuardCfg where
  allowMutations : String
  requireDestructiveHeader : String
  deriving DecidableEq, Repr

/-- The request as the guard reads it: its HTTP method and the raw
`x-allow-destructive` header (`none` when absent). -/
structure GuardReq where
  method : String
  allowDestructive : Option String
  deriving DecidableEq, Repr

/-- `assertMutationAllowed` (src/index.js:529-539): `none` = the request
passes, `some e` = the thrown 403. Non-mutating methods return at once. -/
def assertMutationAllowed (cfg : GuardCfg) (req : GuardReq) : Option HttpError :=
  if ¬ (["POST", "PUT", "PATCH", "DELETE"].contains req.method) then none
  else if cfg.allowMutations ≠ "true" then
    some { status := 403, message := JsVal.strV "Mutations disabled by server" }
  else if cfg.requireDestructiveHeader = "true" then
    if ["true", "yes", "1"].contains (strToLower (req.allowDestructive.getD ""))
    then none
    else some { status := 403,
                message := JsVal.strV
                  "Missing x-allow-destructive header for mutating request" }
  else none

/-- The smoke-test branch's guard call (src/index.js:797-799): the audit route
is a GET, so the guard is applied to a request whose method is GET. -/
def auditSmokeGuard (cfg : GuardCfg) (hdr : Option String) : Option HttpError :=
  assertMutationAllowed cfg { method := "GET", allowDestructive := hdr }

/-- The `item` sub-object of a creation response, as far as the id extraction
reads it (`created?.item?._id || created?.item?.id`). -/
structure CreatedInner where
  _id : JsVal
  id : JsVal
  deriving DecidableEq, Repr

/-- A creation response, as far as the smoke test's id extraction reads it
(src/index.js:815-816). -/
structure CreatedResp where
  id : JsVal
  _id : JsVal
  item : CreatedInner
  itemId : JsVal
  deriving DecidableEq, Repr

/-- `created?.id || created?._id || created?.item?._id || created?.item?.id
|| created?.itemId` (src/index.js:815-816). -/
def extractItemId (c : CreatedResp) : JsVal :=
  jsOr c.id (jsOr c._id (jsOr c.item._id (jsOr c.item.id c.itemId)))

/-- The scripted upstream outcomes of one smoke-test run (what each of the
four calls, were it issued, would return). -/
structure SmokeScript where
  createR : Except HttpError CreatedResp
  updateR : Except HttpError Unit
  publishR : Except HttpError JsVal
  deleteR : Except HttpError Unit

/-- One upstream call of the smoke sequence; the tags carry the item id the
call's path or body embeds. -/
inductive CallTag where
  | createC
  | updateC (itemId : JsVal)
  | publishC (itemId : JsVal)
  | deleteC (itemId : JsVal)
  deriving DecidableEq, Repr

/-- The `smoke` record the audit report carries (src/index.js:801-840). -/
structure SmokeResult where
  created : Option (Bool × JsVal)
  updated : Option Bool
  published : Option (Bool × JsVal)
  deleted : Option Bool
  ok : Bool
  error : Option HttpError
  deriving DecidableEq, Repr

/-- The smoke test (src/index.js:805-841): create, update, optional publish,
delete, all inside one try; the first failure jumps to the catch, which sets
`ok = false` and records the error. The second component is the trace of
upstream calls issued (a failing call is still an issued call). -/
def runSmoke (publish : Bool) (s : SmokeScript) : SmokeResult × List CallTag :=
  match s.createR with
  | .error e =>
      ({ created := none, updated := none, published := none, deleted := none,
         ok := false, error := some e }, [.createC])
  | .ok c =>
      let cid := extractItemId c
      match s.updateR with
      | .error e =>
          ({ created := some (true, cid), updated := none, published := none,
             deleted := none, ok := false, error := some e },
           [.createC, .updateC cid])
      | .ok _ =>
          if publish then
            match s.publishR with
            | .error e =>
                ({ created := some (true, cid), updated := some true,
                   published := none, deleted := none, ok := false,
                   error := some e },
                 [.createC, .updateC cid, .publishC cid])
            | .ok pub =>
                match s.deleteR with
                | .error e =>
                    ({ created := some (true, cid), updated := some true,
                       published := some (true, pub), deleted := none,
                       ok := false, error := some e },
                     [.createC, .updateC cid, .publishC cid, .deleteC cid])
                | .ok _ =>
                    ({ created := some (true, cid), updated := some true,
                       published := some (true, pub), deleted := some true,
                       ok := true, error := none },
                     [.createC, .updateC cid, .publishC cid, .deleteC cid])
          else
            match s.deleteR with
            | .error e =>
                ({ created := some (true, cid), updated := some true,
                   published := none, deleted := none, ok := false,
                   error := some e },
                 [.createC, .updateC cid, .deleteC cid])
            | .ok _ =>
                ({ created := some (true, cid), updated := some true,
                   published := none, deleted := some true, ok := true,
                   error := none },
                 [.createC, .updateC cid, .deleteC cid])

/-- Whether an `Except` outcome is a success. -/
def isOkE {ε α : Type} (o : Except ε α) : Bool :=
  match o with | .ok _ => true | .error _ => false

instance {ε α : Type} [DecidableEq ε] [DecidableEq α] : DecidableEq (Except ε α) :=
  fun x y =>
    match x, y with
    | .ok a, .ok b =>
        if h : a = b then isTrue (by rw [h]) else isFalse (by simp [h])
    | .ok _, .error _ => isFalse (by simp)
    | .error _, .ok _ => isFalse (by simp)
    | .error e, .error f =>
        if h : e = f then isTrue (by rw [h]) else isFalse (by simp [h])

/-! ### Concrete inputs used by counterexamples and witnesses -/

/-- A primary-attempt response failing with status 400 and an exact
"unsupported version" error name. -/
def primC1 : UpstreamResp :=
  { ok := false, status := 400,
    data := { err := .strV "UnsupportedVersionError", message := .undefV,
              msg := .undefV } }

/-- A legacy-attempt response that would succeed with distinguishable data. -/
def legC1 : UpstreamResp :=
  { ok := true, status := 200,
    data := { err := .undefV, message := .strV "legacy payload",
              msg := .undefV } }

/-- A write body whose values sit under `fieldData`. -/
def inputC2 : WriteInput :=
  { fieldData := some [("name", .strV "X")], top := [] }

/-- A first-attempt response failing with 400 and a message that the
alternate container key is required. -/
def respC2 : UpstreamResp :=
  { ok := false, status := 400,
    data := { err := .strV "ValidationError: fields is required",
              message := .undefV, msg := .undefV } }

/-- The error `wf` raises for `primC1`. -/
def errC1 : HttpError :=
  { status := 400, message := .strV "UnsupportedVersionError" }

/-- The error `wf` raises for `respC2`. -/
def errC2 : HttpError :=
  { status := 400, message := .strV "ValidationError: fields is required" }

/-- A body with an empty `fieldData` object and a top-level `_draft: true`:
the normalized map has no flag and the original input carries no `isDraft`,
only `_draft`. -/
def inputC9 : WriteInput :=
  { fieldData := some [], top := [("_draft", .boolV true)] }

/-- A creation response whose only populated identifier field is `id`. -/
def cRespC3 : CreatedResp :=
  { id := .strV "it1", _id := .undefV,
    item := { _id := .undefV, id := .undefV }, itemId := .undefV }

/-- A smoke script where create and update succeed, publish fails with a
400-class error, and delete would succeed if attempted. -/
def scriptC3 : SmokeScript :=
  { createR := .ok cRespC3, updateR := .ok (),
    publishR := .error { status := 400, message := .strV "publish failed" },
    deleteR := .ok () }

/-- A creation response populating none of the recognized identifier fields. -/
def cRespNoId : CreatedResp :=
  { id := .undefV, _id := .undefV,
    item := { _id := .undefV, id := .undefV }, itemId := .undefV }

/-- A smoke script where creation succeeds without an extractable identifier
and every later call succeeds. -/
def scriptC4 : SmokeScript :=
  { createR := .ok cRespNoId, updateR := .ok (),
    publishR := .ok .undefV, deleteR := .ok () }

/-- An item fieldData object with every inspected property absent. -/
def blankFD : ItemFD :=
  { slug := .undefV, name := .undefV, _draft := .undefV, _archived := .undefV }

/-- An item with the given id and slug and nothing else of note. -/
def mkSlugItem (idStr slugStr : String) : Item :=
  { id := .strV idStr, _id := .undefV, itemId := .undefV,
    slug := .strV slugStr, name := .strV "n", isDraft := .undefV,
    isArchived := .undefV, _draft := .undefV, _archived := .undefV,
    fieldData := blankFD }

/-- The fetch error of the failing collection in the audit scenario. -/
def errC8 : HttpError := { status := 500, message := .strV "boom" }

/-- Two per-collection fetch outcomes: the first fails, the second returns
two items. -/
def outsC8 : List (Except HttpError (List Item)) :=
  [Except.error errC8,
   Except.ok [mkSlugItem "i1" "a", mkSlugItem "i2" "b"]]

/-- The upstream pages of the three-page pagination scenario. -/
def pagesC6 : List (List Nat) :=
  [List.replicate 100 0, List.replicate 100 0, List.replicate 37 0]

/-- An upstream serving pages of sizes 100, 100 and 37 at offsets 0, 100 and
200. -/
def fetchC6 : Nat → Except HttpError (PageResp Nat) := fun o =>
  if o = 0 then .ok (.wrapped (List.replicate 100 0))
  else if o = 100 then .ok (.wrapped (List.replicate 100 0))
  else if o = 200 then .ok (.wrapped (List.replicate 37 0))
  else .ok (.wrapped [])

/-- An upstream whose first page is empty. -/
def fetchEmpty : Nat → Except HttpError (PageResp Nat) := fun _ =>
  .ok (.wrapped [])

/-- Association lookup in a slug grouping (proof-side gadget relating the
built map to its entries). -/
def lkp (m : List (JsVal × List JsVal)) (t : JsVal) : Option (List JsVal) :=
  match m with
  | [] => none
  | (k, ids) :: rest => if k = t then some ids else lkp rest t

/-- The keys of a slug grouping, in insertion order. -/
def keysOf (m : List (JsVal × List JsVal)) : List JsVal := m.map Prod.fst

/-- Five items with slugs a, b, a, c, a and distinct identifiers. -/
def itemsC7 : List Item :=
  [mkSlugItem "i1" "a", mkSlugItem "i2" "b", mkSlugItem "i3" "a",
   mkSlugItem "i4" "c", mkSlugItem "i5" "a"]

/-- An item with a missing name (so it receives a patch suggestion) and a
top-level draft flag set, with no nested flag in its fieldData. -/
def itemC5 : Item :=
  { id := .strV "item12345", _id := .undefV, itemId := .undefV,
    slug := .strV "x", name := .undefV, isDraft := .boolV true,
    isArchived := .undefV, _draft := .undefV, _archived := .undefV,
    fieldData := blankFD }

/-- An item with a missing name whose only lifecycle flag sits nested in its
fieldData. -/
def itemW5 : Item :=
  { id := .strV "abc123", _id := .undefV, itemId := .undefV,
    slug := .strV "s", name := .undefV, isDraft := .undefV,
    isArchived := .undefV, _draft := .undefV, _archived := .undefV,
    fieldData := { slug := .undefV, name := .undefV, _draft := .boolV true,
                   _archived := .undefV } }

/-- The suggestion generated for `itemW5`. -/
def patchW5 : PatchSuggestion :=
  { itemId := .strV "abc123", changeSlug := none,
    changeName := some "Missing name abc123",
    patchDraft := .boolV true, patchArchived := .boolV false }

/-! ### Helper lemmas on embedded JavaScript objects -/

theorem jsGet_jsSet_self (m : List (String × JsVal)) (k : String) (v : JsVal) :
    jsGet (jsSet m k v) k = some v := by
  induction m with
  | nil => simp [jsSet, jsGet]
  | cons head rest ih =>
      obtain ⟨k0, v0⟩ := head
      by_cases h : k0 = k <;> simp [jsSet, jsGet, h, ih]

theorem jsGet_jsSet_ne (m : List (String × JsVal)) (k k' : String) (v : JsVal)
    (h : k' ≠ k) : jsGet (jsSet m k v) k' = jsGet m k' := by
  induction m with
  | nil => simp [jsSet, jsGet, Ne.symm h]
  | cons head rest ih =>
      obtain ⟨k0, v0⟩ := head
      by_cases h0 : k0 = k
      · subst h0
        simp [jsSet, jsGet, Ne.symm h]
      · by_cases h1 : k0 = k' <;> simp [jsSet, jsGet, h0, h1, h, ih]

theorem jsDefined_congr (m m' : List (String × JsVal)) (k k' : String)
    (h : jsGet m k = jsGet m' k') : jsDefined m k = jsDefined m' k' := by
  unfold jsDefined
  rw [h]

theorem jsDefined_jsSet_ne (m : List (String × JsVal)) (k k' : String)
    (v : JsVal) (h : k' ≠ k) : jsDefined (jsSet m k v) k' = jsDefined m k' :=
  jsDefined_congr _ _ _ _ (jsGet_jsSet_ne m k k' v h)

theorem jsDefined_norm_draft (fd : List (String × JsVal)) (src : WriteInput) :
    jsDefined (normalizeDraftArchive fd src) "_draft" = some (resolvedDraft fd src) := by
  unfold normalizeDraftArchive resolvedDraft
  cases hd : jsDefined fd "_draft" with
  | some v =>
      simp only [hd]
      cases ha : jsDefined fd "_archived" with
      | some w => simp [ha, hd]
      | none =>
          simp only [ha]
          rw [jsDefined_jsSet_ne fd "_archived" "_draft" _ (by decide)]
          exact hd
  | none =>
      simp only [hd]
      have hset : jsDefined
          (jsSet fd "_draft" (JsVal.boolV (lifecycleDefault
            (jsDefined src.top "isDraft") (jsDefined src.top "_draft"))))
          "_draft" = some (JsVal.boolV (lifecycleDefault
            (jsDefined src.top "isDraft") (jsDefined src.top "_draft"))) := by
        unfold jsDefined
        rw [jsGet_jsSet_self]
      cases ha : jsDefined (jsSet fd "_draft" (JsVal.boolV (lifecycleDefault
          (jsDefined src.top "isDraft") (jsDefined src.top "_draft"))))
          "_archived" with
      | some w => simp [ha, hset]
      | none =>
          simp only [ha]
          rw [jsDefined_jsSet_ne _ "_archived" "_draft" _ (by decide)]
          exact hset

theorem jsDefined_norm_archived (fd : List (String × JsVal)) (src : WriteInput) :
    jsDefined (normalizeDraftArchive fd src) "_archived"
      = some (resolvedArchived fd src) := by
  unfold normalizeDraftArchive resolvedArchived
  cases hd : jsDefined fd "_draft" with
  | some v =>
      simp only [hd]
      cases ha : jsDefined fd "_archived" with
      | some w => simp [ha]
      | none =>
          simp only [ha]
          unfold jsDefined
          rw [jsGet_jsSet_self]
  | none =>
      simp only [hd]
      have harch : jsDefined (jsSet fd "_draft" (JsVal.boolV (lifecycleDefault
          (jsDefined src.top "isDraft") (jsDefined src.top "_draft"))))
          "_archived" = jsDefined fd "_archived" :=
        jsDefined_jsSet_ne fd "_draft" "_archived" _ (by decide)
      cases ha : jsDefined fd "_archived" with
      | some w =>
          rw [harch, ha]
          exact harch.trans ha
      | none =>
          rw [harch, ha]
          unfold jsDefined
          rw [jsGet_jsSet_self]

theorem jsGet_isSome_of_jsDefined (m : List (String × JsVal)) (k : String)
    (v : JsVal) (h : jsDefined m k = some v) : (jsGet m k).isSome = true := by
  unfold jsDefined at h
  cases hg : jsGet m k with
  | none => rw [hg] at h; exact absurd h (by simp)
  | some w => simp

/-! ### Claim theorems -/

/-- Claim C9 (amended): the write routes normalize the two lifecycle flags
into the field-data map before the upstream attempt with the precedence: a
defined flag already in the normalized map wins; otherwise the
`isDraft`/`isArchived` field on the original input; otherwise the
`_draft`/`_archived` field on the original input; otherwise `false` — so both
flags are always defined in the map that is sent. -/
theorem normalize_flags (input : WriteInput) :
    jsDefined (normalizeDraftArchive (toFieldDataShape input) input) "_draft"
        = some (resolvedDraft (toFieldDataShape input) input)
      ∧ jsDefined (normalizeDraftArchive (toFieldDataShape input) input) "_archived"
        = some (resolvedArchived (toFieldDataShape input) input) :=
  ⟨jsDefined_norm_draft _ _, jsDefined_norm_archived _ _⟩

/-- Claim C9, counterexample to the claim as stated: for a body with an empty
`fieldData` object, no `isDraft`, and a top-level `_draft: true`, the claim's
precedence (normalized map, then `isDraft`/`isArchived`, then `false`) says
the normalized `_draft` is `false`, but the code consults the original
input's `_draft` field and produces `true`. -/
theorem normalize_flags_cex :
    jsDefined (toFieldDataShape inputC9) "_draft" = none
      ∧ jsDefined inputC9.top "isDraft" = none
      ∧ jsGet (normalizeDraftArchive (toFieldDataShape inputC9) inputC9) "_draft"
          = some (JsVal.boolV true)
      ∧ jsGet (normalizeDraftArchive (toFieldDataShape inputC9) inputC9) "_draft"
          ≠ some (JsVal.boolV false) := by
  decide

/-- Claim C2 (amended): every write through the create route issues exactly
one upstream call, whose payload wraps the normalized values under the
`fieldData` container key with both lifecycle flags present; the outcome is
that single call's outcome, no retry with an alternate container key ever
occurs, and the route's response carries no `usedAlternateShape` flag. -/
theorem create_single_attempt (input : WriteInput) (resp : UpstreamResp) :
    (createItemRoute input resp).2 = [createRequestBody input]
      ∧ (createItemRoute input resp).1 = wf resp
      ∧ (jsGet (createRequestBody input).fieldData "_draft").isSome = true
      ∧ (jsGet (createRequestBody input).fieldData "_archived").isSome = true :=
  ⟨rfl, rfl,
    jsGet_isSome_of_jsDefined _ _ _ (jsDefined_norm_draft (toFieldDataShape input) input),
    jsGet_isSome_of_jsDefined _ _ _ (jsDefined_norm_archived (toFieldDataShape input) input)⟩

/-- Claim C2, counterexample to the claim as stated: a first attempt that
fails with status 400 and a "fields is required" message (the required
alternate key signature) elicits no retry — the trace holds one call, not
two, so no retry under the alternate key is issued and no
`usedAlternateShape` flag is ever set. -/
theorem create_shape_retry_cex :
    (createItemRoute inputC2 respC2).1 = Except.error errC2
      ∧ requiredAlternateKeySig errC2 = true
      ∧ (createItemRoute inputC2 respC2).2.length = 1
      ∧ (createItemRoute inputC2 respC2).2.length ≠ 2 := by
  decide

/-- Claim C1 (amended): the dispatcher `wf` issues exactly one upstream call
per invocation; every failure, version-mismatch or not, propagates
immediately as an `HttpError` with the upstream status and extracted
message, and no second call with the legacy version tag is ever issued. -/
theorem wf_no_retry (primary legacy : UpstreamResp) (h : primary.ok = false) :
    wfDispatch primary legacy
      = (Except.error { status := primary.status, message := extractMsg primary }, 1) := by
  simp [wfDispatch, wf, h]

/-- Claim C1, witness: the no-retry theorem applied to a concrete failing
primary response. -/
theorem wf_no_retry_witness :
    wfDispatch primC1 legC1 = (Except.error errC1, 1) :=
  wf_no_retry primC1 legC1 rfl

/-- Claim C1, counterexample to the claim as stated: a primary attempt that
fails with status 400 and the exact unsupported-version error name elicits no
additional call — the dispatcher issues one call, not two, and its final
result is the primary failure rather than the legacy call's outcome. -/
theorem wf_version_retry_cex :
    wf primC1 = Except.error errC1
      ∧ unsupportedVersionSig errC1 = true
      ∧ (wfDispatch primC1 legC1).2 = 1
      ∧ (wfDispatch primC1 legC1).2 ≠ 2
      ∧ (wfDispatch primC1 legC1).1 ≠ wf legC1 := by
  decide

/-- Claim C10: evaluation at the failing input. The guard returns at once for
any non-mutating method, and the audit route is a GET, so the smoke-test
branch is never rejected even with `ALLOW_MUTATIONS` not equal to the string
true — while a direct POST under the same configuration is rejected with 403.
The code's own comment says the smoke sequence requires mutation approval. -/
theorem guard_smoke_bypass :
    assertMutationAllowed
        { allowMutations := "false", requireDestructiveHeader := "true" }
        { method := "GET", allowDestructive := none } = none
      ∧ assertMutationAllowed
          { allowMutations := "false", requireDestructiveHeader := "true" }
          { method := "POST", allowDestructive := none }
          = some { status := 403,
                   message := JsVal.strV "Mutations disabled by server" }
      ∧ ∀ (cfg : GuardCfg) (hdr : Option String), auditSmokeGuard cfg hdr = none :=
  ⟨by decide, by decide, fun cfg hdr => rfl⟩

/-- Claim C3 (amended): the smoke test's overall ok flag is true exactly when
every stage it attempts succeeds — create, update, delete, and, when
publishing is requested, publish as well; and when publishing is requested
and fails (any status, 400 included), the failure is fatal: it becomes the
run's recorded error, the delete stage is never issued, and no legacy
fallback publish call is attempted (the trace ends at the single publish
call). -/
theorem smoke_overall_ok (publish : Bool) (s : SmokeScript) :
    ((runSmoke publish s).1.ok = true ↔
        (isOkE s.createR = true ∧ isOkE s.updateR = true
          ∧ (publish = true → isOkE s.publishR = true)
          ∧ isOkE s.deleteR = true))
      ∧ (∀ (c : CreatedResp) (e : HttpError),
          s.createR = Except.ok c → s.updateR = Except.ok () →
          s.publishR = Except.error e → publish = true →
            (runSmoke publish s).1.ok = false
              ∧ (runSmoke publish s).1.error = some e
              ∧ (runSmoke publish s).2
                  = [CallTag.createC, CallTag.updateC (extractItemId c),
                     CallTag.publishC (extractItemId c)]) := by
  obtain ⟨cr, ur, pr, dr⟩ := s
  constructor
  · cases cr <;> cases ur <;> cases pr <;> cases dr <;> cases publish <;>
      simp [runSmoke, isOkE]
  · intro c e hc hu hp hpub
    subst hpub
    cases cr <;> cases ur <;> cases pr <;>
      simp_all [runSmoke]

/-- Claim C3, counterexample to the claim as stated: with publishing
requested, create and update succeeding and the publish call failing with
status 400, the run's overall flag is false although create, update and
delete were all bound to succeed, the delete stage is never issued, and no
legacy fallback publish call is made — the trace holds exactly three calls
with a single publish. -/
theorem smoke_publish_cex :
    (runSmoke true scriptC3).1.ok = false
      ∧ (runSmoke true scriptC3).1.error
          = some { status := 400, message := JsVal.strV "publish failed" }
      ∧ (runSmoke true scriptC3).2
          = [CallTag.createC, CallTag.updateC (JsVal.strV "it1"),
             CallTag.publishC (JsVal.strV "it1")]
      ∧ isOkE scriptC3.deleteR = true := by
  decide

/-- Claim C4 (amended): when the creation call succeeds but none of the
recognized identifier fields is populated, the run does not fail at
extraction — the created stage is recorded as ok with an undefined item id,
and the very next upstream call is the update, issued with the undefined
identifier embedded; no diagnostic carrying the raw creation response is
produced. -/
theorem smoke_missing_id_proceeds (publish : Bool) (s : SmokeScript)
    (c : CreatedResp) (hc : s.createR = Except.ok c)
    (h1 : c.id = JsVal.undefV) (h2 : c._id = JsVal.undefV)
    (h3 : c.item._id = JsVal.undefV) (h4 : c.item.id = JsVal.undefV)
    (h5 : c.itemId = JsVal.undefV) :
    (runSmoke publish s).1.created = some (true, JsVal.undefV)
      ∧ (runSmoke publish s).2.getD 1 CallTag.createC
          = CallTag.updateC JsVal.undefV := by
  have hid : extractItemId c = JsVal.undefV := by
    simp [extractItemId, h1, h2, h3, h4, h5, jsOr, JsVal.truthy]
  obtain ⟨cr, ur, pr, dr⟩ := s
  simp only at hc
  subst hc
  cases ur <;> cases pr <;> cases dr <;> cases publish <;>
    simp_all [runSmoke]

/-- Claim C4, witness: the theorem applied to the concrete identifier-less
script. -/
theorem smoke_missing_id_witness :
    (runSmoke false scriptC4).1.created = some (true, JsVal.undefV)
      ∧ (runSmoke false scriptC4).2.getD 1 CallTag.createC
          = CallTag.updateC JsVal.undefV :=
  smoke_missing_id_proceeds false scriptC4 cRespNoId rfl rfl rfl rfl rfl rfl

/-- Claim C4, counterexample to the claim as stated: a creation response with
none of the recognized identifier fields, followed by upstream calls that all
succeed, yields a run reported as fully ok, with no error attached (in
particular no diagnostic carrying the raw creation response) and with a
delete call issued — against the claim's reported failure and suppressed
delete. -/
theorem smoke_missing_id_cex :
    extractItemId cRespNoId = JsVal.undefV
      ∧ (runSmoke false scriptC4).1.ok = true
      ∧ (runSmoke false scriptC4).1.error = none
      ∧ (runSmoke false scriptC4).2
          = [CallTag.createC, CallTag.updateC JsVal.undefV,
             CallTag.deleteC JsVal.undefV] := by
  decide

theorem sum_okLen (outs : List (Except HttpError (List Item))) :
    (outs.map okLen).sum
      = ((outs.filterMap fun o => o.toOption).map List.length).sum := by
  induction outs with
  | nil => rfl
  | cons o rest ih => cases o <;> simp [okLen, Except.toOption, ih]

theorem map_colEntry_error (outs : List (Except HttpError (List Item))) :
    (outs.map colEntry).map (fun c => c.error)
      = outs.map (fun o => match o with
          | .ok _ => none
          | .error e => some e) := by
  induction outs with
  | nil => rfl
  | cons o rest ih => cases o <;> simp [colEntry, ih]

/-- Claim C8: a per-collection fetch failure is recorded in that collection's
entry as a populated error field, the loop continues through every remaining
collection, the run's status stays ok, and the total item count accumulates
only over the collections whose fetch succeeded; in particular, with one
failing and one two-item collection the totals count 2 and the failing entry
carries the fetch error. -/
theorem audit_partial_failure :
    (∀ (outs : List (Except HttpError (List Item))),
        (auditReport outs).status = "ok"
          ∧ (auditReport outs).collections.length = outs.length
          ∧ (auditReport outs).totalItems
              = ((outs.filterMap fun o => o.toOption).map List.length).sum
          ∧ (auditReport outs).collections.map (fun c => c.error)
              = outs.map (fun o => match o with
                  | .ok _ => none
                  | .error e => some e))
      ∧ (auditReport outsC8).status = "ok"
      ∧ (auditReport outsC8).totalItems = 2
      ∧ ((auditReport outsC8).collections.getD 0 (colEntry (.ok []))).error
          = some errC8
      ∧ ((auditReport outsC8).collections.getD 1 (colEntry (.ok []))).error
          = none := by
  refine ⟨fun outs => ⟨rfl, by simp [auditReport], ?_, ?_⟩, ?_, ?_, ?_, ?_⟩
  · exact sum_okLen outs
  · simpa [auditReport] using map_colEntry_error outs
  · rfl
  · decide
  · decide
  · decide

theorem listAllGo_spec {α : Type} (fetch : Nat → Except HttpError (PageResp α))
    (pageSize : Nat) :
    ∀ (pages : List (List α)) (offset fuel : Nat),
      pages ≠ [] →
      (∀ k, k < pages.length - 1 → (pages.getD k []).length = pageSize) →
      (pages.getD (pages.length - 1) []).length < pageSize →
      (∀ k, (h : k < pages.length) →
        fetch (offset + k * pageSize) = Except.ok (PageResp.wrapped (pages.getD k []))) →
      pages.length ≤ fuel →
      listAllGo fetch pageSize fuel offset
        = some (Except.ok (pages.join, pages.length)) := by
  intro pages
  induction pages with
  | nil => intro offset fuel hne; exact absurd rfl hne
  | cons p ps ih =>
      intro offset fuel hne hfull hlast hfetch hfuel
      cases fuel with
      | zero => simp at hfuel
      | succ f =>
          have h0 : fetch offset = Except.ok (PageResp.wrapped p) := by
            have := hfetch 0 (by simp)
            simpa using this
          cases ps with
          | nil =>
              have hl : p.length < pageSize := by simpa using hlast
              simp [listAllGo, h0, pageItems, hl]
          | cons q rest =>
              have hp : p.length = pageSize := by
                have := hfull 0 (by simp only [List.length_cons]; omega)
                simpa using this
              have hnl : ¬ p.length < pageSize := by omega
              have hrec := ih (offset + pageSize) f (by simp)
                (fun k hk => by
                  have hb : k + 1 < (p :: q :: rest).length - 1 := by
                    simp only [List.length_cons] at hk ⊢
                    omega
                  have := hfull (k + 1) hb
                  simpa using this)
                (by
                  have := hlast
                  simpa [List.length_cons] using this)
                (fun k hk => by
                  have := hfetch (k + 1) (by simpa using Nat.succ_lt_succ hk)
                  have harith : offset + (k + 1) * pageSize
                      = offset + pageSize + k * pageSize := by ring
                  rw [harith] at this
                  simpa using this)
                (by simpa using Nat.le_of_succ_le_succ hfuel)
              simp [listAllGo, h0, pageItems, hnl, hrec]

/-- Claim C6: the pagination aggregator starts at offset 0, advances the
offset by the page size after each full page, concatenates the items of every
fetched page in order, and stops with the first page whose item count is
strictly below the requested size (an empty page included): over any upstream
whose pages at offsets 0, pageSize, 2*pageSize, ... are all full except a
short last one, it returns the concatenation of exactly those pages and
issues exactly one call per page. -/
theorem listAllItems_spec {α : Type}
    (fetch : Nat → Except HttpError (PageResp α)) (pageSize : Nat)
    (pages : List (List α)) (fuel : Nat)
    (hne : pages ≠ [])
    (hfull : ∀ k, k < pages.length - 1 → (pages.getD k []).length = pageSize)
    (hlast : (pages.getD (pages.length - 1) []).length < pageSize)
    (hfetch : ∀ k, k < pages.length →
      fetch (k * pageSize) = Except.ok (PageResp.wrapped (pages.getD k [])))
    (hfuel : pages.length ≤ fuel) :
    listAllItems fetch pageSize fuel
      = some (Except.ok (pages.join, pages.length)) := by
  have := listAllGo_spec fetch pageSize pages 0 fuel hne hfull hlast
    (fun k hk => by simpa using hfetch k hk) hfuel
  simpa [listAllItems] using this

set_option maxRecDepth 10000 in
/-- Claim C6, witness: pages of sizes 100, 100 and 37 yield 237 items in
exactly 3 calls, and a first page of size 0 yields 0 items in exactly one
call. -/
theorem listAllItems_spec_witness :
    listAllItems fetchC6 100 3 = some (Except.ok (pagesC6.join, 3))
      ∧ pagesC6.join.length = 237
      ∧ listAllItems fetchEmpty 100 1
          = some (Except.ok (List.join [([] : List Nat)], 1)) :=
  ⟨listAllItems_spec fetchC6 100 pagesC6 3 (by decide) (by decide) (by decide)
      (by decide) (by decide),
    by decide,
    listAllItems_spec fetchEmpty 100 [[]] 1 (by decide) (by decide) (by decide)
      (by decide) (by decide)⟩

theorem lkp_insertSlug (m : List (JsVal × List JsVal)) (s i t : JsVal) :
    lkp (insertSlug m s i) t
      = if t = s then some ((lkp m s).getD [] ++ [i]) else lkp m t := by
  induction m with
  | nil =>
      by_cases h : t = s
      · subst h; simp [insertSlug, lkp]
      · simp [insertSlug, lkp, h, Ne.symm h]
  | cons head rest ih =>
      obtain ⟨k, ids⟩ := head
      by_cases hks : k = s
      · subst hks
        by_cases hkt : k = t
        · subst hkt; simp [insertSlug, lkp]
        · have hts : ¬ t = k := fun h => hkt h.symm
          simp [insertSlug, lkp, hkt, hts]
      · by_cases hkt : k = t
        · subst hkt
          simp [insertSlug, lkp, hks]
        · simp [insertSlug, lkp, hks, hkt, ih]

theorem keysOf_cons (k : JsVal) (ids : List JsVal)
    (rest : List (JsVal × List JsVal)) :
    keysOf ((k, ids) :: rest) = k :: keysOf rest := rfl

theorem keysOf_insertSlug (m : List (JsVal × List JsVal)) (s i : JsVal) :
    keysOf (insertSlug m s i)
      = if s ∈ keysOf m then keysOf m else keysOf m ++ [s] := by
  induction m with
  | nil => simp [insertSlug, keysOf]
  | cons head rest ih =>
      obtain ⟨k, ids⟩ := head
      by_cases hks : k = s
      · subst hks
        simp [insertSlug, keysOf_cons]
      · have h2 : ¬ s = k := fun h => hks h.symm
        have hstep : insertSlug ((k, ids) :: rest) s i
            = (k, ids) :: insertSlug rest s i := by
          simp [insertSlug, hks]
        rw [hstep, keysOf_cons, keysOf_cons, ih]
        by_cases hm : s ∈ keysOf rest
        · rw [if_pos hm, if_pos (by simp [List.mem_cons, hm])]
        · rw [if_neg hm, if_neg (by simp [List.mem_cons, hm, h2])]
          simp

theorem nodup_insertSlug (m : List (JsVal × List JsVal)) (s i : JsVal)
    (h : (keysOf m).Nodup) : (keysOf (insertSlug m s i)).Nodup := by
  rw [keysOf_insertSlug]
  split_ifs with hm
  · exact h
  · simp [List.nodup_append, h, hm]

theorem mem_iff_lkp (m : List (JsVal × List JsVal))
    (h : (keysOf m).Nodup) (t : JsVal) (ids : List JsVal) :
    (t, ids) ∈ m ↔ lkp m t = some ids := by
  induction m with
  | nil => simp [lkp]
  | cons head rest ih =>
      obtain ⟨k, v⟩ := head
      simp only [keysOf, List.map_cons, List.nodup_cons] at h
      obtain ⟨hknot, hnd⟩ := h
      have hnd2 : (keysOf rest).Nodup := hnd
      by_cases hkt : k = t
      · subst hkt
        have hl : lkp ((k, v) :: rest) k = some v := by simp [lkp]
        rw [hl, List.mem_cons, Option.some.injEq]
        constructor
        · rintro (h1 | h1)
          · rw [Prod.mk.injEq] at h1
            exact h1.2.symm
          · exact absurd (List.mem_map_of_mem Prod.fst h1) hknot
        · intro h1
          left
          rw [Prod.mk.injEq]
          exact ⟨rfl, h1.symm⟩
      · have htk : ¬ t = k := fun h => hkt h.symm
        simp [lkp, hkt, ih hnd2, Prod.mk.injEq, htk]

theorem nodup_seenAux (items : List Item) :
    ∀ acc, (keysOf acc).Nodup →
      (keysOf (List.foldl stepSlug acc items)).Nodup := by
  induction items with
  | nil => intro acc h; exact h
  | cons it rest ih =>
      intro acc h
      rw [List.foldl_cons]
      cases hk : slugKey it with
      | none =>
          have hstep : stepSlug acc it = acc := by simp [stepSlug, hk]
          rw [hstep]
          exact ih acc h
      | some s =>
          have hstep : stepSlug acc it = insertSlug acc s (idOf it) := by
            simp [stepSlug, hk]
          rw [hstep]
          exact ih _ (nodup_insertSlug acc s (idOf it) h)

theorem slugIds_cons (it : Item) (rest : List Item) (t : JsVal) :
    slugIds (it :: rest) t
      = if slugKey it = some t then idOf it :: slugIds rest t
        else slugIds rest t := by
  by_cases h : slugKey it = some t <;> simp [slugIds, List.filter_cons, h]

theorem seen_lkp (items : List Item) :
    ∀ (acc : List (JsVal × List JsVal)) (t : JsVal),
      lkp (List.foldl stepSlug acc items) t
        = match lkp acc t with
          | some ids => some (ids ++ slugIds items t)
          | none =>
              if slugIds items t = [] then none else some (slugIds items t) := by
  induction items with
  | nil =>
      intro acc t
      cases h : lkp acc t <;> simp [slugIds, h]
  | cons it rest ih =>
      intro acc t
      rw [List.foldl_cons, ih (stepSlug acc it) t]
      cases hk : slugKey it with
      | none =>
          have hstep : stepSlug acc it = acc := by simp [stepSlug, hk]
          have hcond : ¬ slugKey it = some t := by simp [hk]
          have hsl : slugIds (it :: rest) t = slugIds rest t := by
            rw [slugIds_cons, if_neg hcond]
          rw [hstep, hsl]
      | some s =>
          have hstep : stepSlug acc it = insertSlug acc s (idOf it) := by
            simp [stepSlug, hk]
          by_cases hts : t = s
          · subst hts
            have hcond : slugKey it = some t := hk
            have hsl : slugIds (it :: rest) t = idOf it :: slugIds rest t := by
              rw [slugIds_cons, if_pos hcond]
            rw [hstep, lkp_insertSlug, if_pos rfl, hsl]
            cases hacc : lkp acc t with
            | some ids => simp [hacc, List.append_assoc]
            | none => simp [hacc]
          · have hcond : ¬ slugKey it = some t := by
              rw [hk]
              intro h
              exact hts (Option.some.inj h).symm
            have hsl : slugIds (it :: rest) t = slugIds rest t := by
              rw [slugIds_cons, if_neg hcond]
            rw [hstep, lkp_insertSlug, if_neg hts, hsl]


/-- Claim C7: the audit's duplicate groups are exactly the truthy-slug groups
with more than one identifier, each group holding precisely the identifiers
of the items sharing that slug, in original encounter order; in particular,
for slugs a, b, a, c, a with distinct identifiers the one duplicate group is
slug a with its three identifiers in encounter order. -/
theorem dup_slug_groups :
    (∀ (items : List Item) (t : JsVal) (ids : List JsVal),
        (t, ids) ∈ dupSlugs items ↔ (1 < ids.length ∧ ids = slugIds items t))
      ∧ dupSlugs itemsC7
          = [(JsVal.strV "a",
              [JsVal.strV "i1", JsVal.strV "i3", JsVal.strV "i5"])] := by
  constructor
  · intro items t ids
    have hnd : (keysOf (seenSlugs items)).Nodup :=
      nodup_seenAux items [] (by simp [keysOf])
    rw [dupSlugs, List.mem_filter, mem_iff_lkp _ hnd t ids, seenSlugs,
      seen_lkp items [] t]
    simp only [lkp]
    by_cases hsl : slugIds items t = []
    · rw [if_pos hsl]
      constructor
      · rintro ⟨h1, _⟩; exact absurd h1 (by simp)
      · rintro ⟨h1, h2⟩
        rw [h2, hsl] at h1
        exact absurd h1 (by simp)
    · rw [if_neg hsl]
      constructor
      · rintro ⟨h1, h2⟩
        rw [Option.some.injEq] at h1
        subst h1
        exact ⟨by simpa using h2, rfl⟩
      · rintro ⟨h1, h2⟩
        subst h2
        exact ⟨rfl, by simpa using h1⟩
  · decide

theorem jsNN_of_nullish (a b : JsVal) (h : nullish a = true) : jsNN a b = b := by
  cases a with
  | undefV => rfl
  | nullV => rfl
  | boolV b0 => simp [nullish] at h
  | numV n => simp [nullish] at h
  | strV s => simp [nullish] at h

/-- Claim C5 (amended): the patch body of every suggestion carries the flags
read solely from the item's nested fieldData map — `fieldData._draft` and
`fieldData._archived`, each defaulting to false when nullish — and,
consequently, whenever the item's top-level `isDraft`/`isArchived` and
`_draft`/`_archived` fields are all nullish, the patch flags equal the
effective precedence-resolved flags (a sufficient condition only). -/
theorem patch_flags_nested (dups : List (JsVal × List JsVal)) (it : Item)
    (p : PatchSuggestion) (hp : suggestionFor dups it = some p) :
    (p.patchDraft = jsNN it.fieldData._draft (JsVal.boolV false)
        ∧ p.patchArchived = jsNN it.fieldData._archived (JsVal.boolV false))
      ∧ (nullish it.isDraft = true → nullish it._draft = true →
          nullish it.isArchived = true → nullish it._archived = true →
          p.patchDraft = isDraftOf it ∧ p.patchArchived = isArchivedOf it) := by
  rw [suggestionFor] at hp
  repeat' split at hp
  all_goals
    first
      | exact Option.noConfusion hp
      | (rw [Option.some.injEq] at hp
         rw [← hp]
         refine ⟨⟨rfl, rfl⟩, ?_⟩
         intro hd1 hd2 ha1 ha2
         have hdr : isDraftOf it = jsNN it.fieldData._draft (JsVal.boolV false) := by
           rw [isDraftOf, jsNN_of_nullish _ _ hd1, jsNN_of_nullish _ _ hd2]
         have har : isArchivedOf it
             = jsNN it.fieldData._archived (JsVal.boolV false) := by
           rw [isArchivedOf, jsNN_of_nullish _ _ ha1, jsNN_of_nullish _ _ ha2]
         rw [hdr, har]
         exact ⟨rfl, rfl⟩)

/-- Claim C5, witness: the theorem applied to an item whose only lifecycle
flag sits nested in its fieldData — the patch carries the nested flags, and
they are the effective flags. -/
theorem patch_flags_nested_witness :
    (patchW5.patchDraft = jsNN itemW5.fieldData._draft (JsVal.boolV false)
        ∧ patchW5.patchArchived
            = jsNN itemW5.fieldData._archived (JsVal.boolV false))
      ∧ (patchW5.patchDraft = isDraftOf itemW5
        ∧ patchW5.patchArchived = isArchivedOf itemW5) :=
  And.intro (patch_flags_nested [] itemW5 patchW5 (by decide)).1
    ((patch_flags_nested [] itemW5 patchW5 (by decide)).2 (by decide) (by decide)
      (by decide) (by decide))

/-- Claim C5, counterexample to the claim as stated: an item whose draft
state is set only at top level (`isDraft: true`, nothing nested) receives a
patch suggestion whose body carries `_draft: false`, while the effective
precedence-resolved flag (top-level wins, absence defaults to false) is
true — the patch does not carry the item's effective flags. -/
theorem patch_flags_cex :
    (isDraftOf itemC5).truthy = true
      ∧ (patchSuggestions [itemC5]).map (fun p => p.patchDraft)
          = [JsVal.boolV false]
      ∧ (patchSuggestions [itemC5]).map (fun p => p.patchDraft)
          ≠ [isDraftOf itemC5] := by
  decide

end WF
